import Mathlib

/-!
Verification of the health-checking decision procedure in
pkg/healthchecker/healthchecker.go (cockroach-operator).

The Go code is shallowly embedded as executable Lean definitions:

* Go strings are `String` (a structure over `List Char`); the string
  operations the code uses (strings.Split on a single space,
  strings.HasPrefix, strings.TrimSuffix, strings.ContainsAny) are given
  list-level executable models below that follow the Go library semantics.
* `strconv.ParseFloat` is modelled by `parseFloat`, a parser for the
  decimal forms of Go float literals (optional sign, integer/fraction
  digits, optional decimal exponent) returning an exact rational.
  Hexadecimal floats, "inf"/"nan" forms, digit-group underscores and
  overflow/underflow range errors are outside the model; none of the
  claims depend on them, and the sign of the parsed value is exact.
* Rational arithmetic inside the executable definitions is written with
  `mkRat`, `qAdd` and `qMul` (plain wrappers around ℚ) rather than the
  `+`/`*`/`/` instances, because the library's rational operations are
  sealed against unfolding and would block evaluation by `decide`;
  the lemmas `qAdd_eq`/`qMul_eq` identify them with ordinary arithmetic.
* The remote-exec collaborator `kube.ExecInPod` is an environment
  `env : Nat -> ExecResult`; the i-th exec performed by a probe
  invocation reads `env i`.  A counter is threaded through all
  definitions, so "how many exec calls ran" is observable.
* Go error values are the inductive `GoError`: `errMsg` for
  `errors.Errorf`/`errors.New`, `wrap` for `errors.Wrapf`, `numError`
  for the `strconv` parse error, and `curlNotFound` for the
  `CurlNotFoundErr` struct.  The Go type assertion
  `err.(CurlNotFoundErr)` holds exactly for the `curlNotFound`
  constructor (in particular it fails on a `wrap` of one, as in Go,
  which does not use `errors.As`).
-/

/-- Model of Go error values as built by healthchecker.go: `errMsg` is
`errors.Errorf`/`errors.New`, `wrap` is `errors.Wrapf` (message plus cause),
`numError` is the `*strconv.NumError` returned by `strconv.ParseFloat`,
and `curlNotFound` is the `CurlNotFoundErr` struct wrapping its `Err` field. -/
inductive GoError : Type where
  | errMsg (msg : String) : GoError
  | wrap (msg : String) (cause : GoError) : GoError
  | numError (num : String) : GoError
  | curlNotFound (cause : GoError) : GoError
deriving DecidableEq, Repr

/-- The Go type assertion `_, ok := err.(CurlNotFoundErr)` on a non-nil error. -/
def GoError.isCurlNotFound : GoError → Bool
  | .curlNotFound _ => true
  | _ => false

/-- The Go type assertion `_, ok := err.(CurlNotFoundErr)` on a possibly-nil
error value (`none` is Go's nil error, on which the assertion fails). -/
def isCurlNotFoundOpt : Option GoError → Bool
  | some e => e.isCurlNotFound
  | none => false

/-- Rational addition, written through `mkRat` so that it evaluates by
`decide`; equal to `+` on ℚ by `qAdd_eq`. -/
def qAdd (a b : ℚ) : ℚ := mkRat (a.num * b.den + b.num * a.den) (a.den * b.den)

/-- Rational multiplication, written through `mkRat` so that it evaluates by
`decide`; equal to `*` on ℚ by `qMul_eq`. -/
def qMul (a b : ℚ) : ℚ := mkRat (a.num * b.num) (a.den * b.den)

/-- Go `strings.Split(s, " ")`, at the character-list level: splits around
every single occurrence of the space character; adjacent spaces produce empty
fields; the result always has one more field than there are spaces. -/
def splitSp : List Char → List (List Char)
  | [] => [[]]
  | c :: t =>
    if c = ' ' then [] :: splitSp t
    else
      match splitSp t with
      | h :: r => (c :: h) :: r
      | [] => [[c]]

/-- Go `strings.TrimSuffix(s, "\n")`: removes one trailing newline if present. -/
def trimNewlineSuffix (l : List Char) : List Char :=
  if l.getLast? = some '\n' then l.dropLast else l

/-- Go `strings.ContainsAny(s, chars)`: true iff some character of `chars`
occurs in `s` (a character-set membership test, not a substring test). -/
def containsAny (s chars : String) : Bool :=
  s.data.any (fun c => chars.data.contains c)

/-- Substring search at the character-list level: true iff `sub` occurs as a
contiguous run inside `s`. -/
def containsSubL (sub : List Char) : List Char → Bool
  | [] => sub.isPrefixOf ([] : List Char)
  | c :: t => sub.isPrefixOf (c :: t) || containsSubL sub t

/-- Go `strings.Contains(s, substr)`: substring containment.  This is the
operation the specification's words describe for the tool-missing test. -/
def containsSubstring (s substr : String) : Bool :=
  containsSubL substr.data s.data

/-- Value of a list of decimal digit characters. -/
def digitsToNat (l : List Char) : ℕ :=
  l.foldl (fun a c => a * 10 + (c.toNat - 48)) 0

/-- Exponent-and-end part of a Go decimal float literal: either the end of
input, or `e`/`E`, an optional sign, and at least one digit ending the input.
`sgn`, `mantNum` and `mantDen` are the already-parsed sign and mantissa. -/
def parseExpPart (sgn mantNum : ℤ) (mantDen : ℕ) : List Char → Option ℚ
  | [] => some (mkRat (sgn * mantNum) mantDen)
  | c :: t =>
    if c = 'e' ∨ c = 'E' then
      let (eneg, t2) : Bool × List Char :=
        match t with
        | '-' :: u => (true, u)
        | '+' :: u => (false, u)
        | u => (false, u)
      let ds := t2.takeWhile Char.isDigit
      let rest := t2.dropWhile Char.isDigit
      if ds = [] ∨ rest ≠ [] then none
      else if eneg then some (mkRat (sgn * mantNum) (mantDen * 10 ^ digitsToNat ds))
      else some (mkRat (sgn * mantNum * 10 ^ digitsToNat ds) mantDen)
    else none

/-- Model of `strconv.ParseFloat` on the decimal forms of Go float syntax:
optional sign, digits with an optional fraction (at least one digit in the
mantissa), optional decimal exponent.  Returns the exact rational value;
`none` is a parse error (non-nil `err` in Go). -/
def parseFloat (s : List Char) : Option ℚ :=
  let (sgn, cs) : ℤ × List Char :=
    match s with
    | '-' :: t => (-1, t)
    | '+' :: t => (1, t)
    | t => (1, t)
  let ip := cs.takeWhile Char.isDigit
  let r1 := cs.dropWhile Char.isDigit
  match r1 with
  | '.' :: t =>
    let fp := t.takeWhile Char.isDigit
    let r2 := t.dropWhile Char.isDigit
    if ip = [] ∧ fp = [] then none
    else parseExpPart sgn (digitsToNat ip * 10 ^ fp.length + digitsToNat fp) (10 ^ fp.length) r2
  | _ => if ip = [] then none else parseExpPart sgn (digitsToNat ip) 1 r1

/-- Constant `underreplicatedmetric` from healthchecker.go. -/
def underreplicatedmetric : String := "ranges_underreplicated\x7bstore="

/-- Constant `curlnotfounderr` from healthchecker.go. -/
def curlnotfounderr : String := "/bin/bash: curl: command not found"

/-- Constant `sleepBetweenUpdates` (1 minute), in seconds. -/
def sleepBetweenUpdates : ℚ := 60

/-- Message of the error returned by `extractMetric` on empty output:
`errors.Errorf("non existing ranges_underreplicated metric for partition %v", partition)`. -/
def nonExistingMsg (partition : ℤ) : String :=
  "non existing ranges_underreplicated metric for partition " ++ toString partition

/-- Message shared by the format-check failures of `extractMetric`:
`"incorrect format of the output: actual='%s' expected to start with=%s"`
(the source uses the same text for the prefix-mismatch and the
too-few-tokens failures). -/
def incorrectFormatMsg (output underepmetric : String) : String :=
  "incorrect format of the output: actual='" ++ output ++
    "' expected to start with=" ++ underepmetric

/-- Message of the error returned by `extractMetric` on a positive metric:
`errors.Errorf("under replica is not zero for partition %v", partition)`. -/
def notZeroMsg (partition : ℤ) : String :=
  "under replica is not zero for partition " ++ toString partition

/-- Character-list core of `extractMetric` (healthchecker.go, lines 180-205),
mirroring the Go statement by statement:
`if output == ""` → non-existing-metric error; `if !strings.HasPrefix(output,
underepmetric)` → incorrect-format error; `out := strings.Split(output, " ")`;
`if out != nil && len(out) <= 1` → incorrect-format error (`out != nil` always
holds, and the two match arms below are exactly `len(out) <= 1` and its
negation); `metric := strings.TrimSuffix(out[1], "\n")`;
`strconv.ParseFloat(metric, 1)` error → returned as-is; parsed value `i > 0` →
not-zero error; otherwise the Go function returns `(0, nil)`, here `.ok 0`. -/
def extractMetricL (o u : List Char) (partition : ℤ) : Except GoError Int :=
  if o = [] then .error (.errMsg (nonExistingMsg partition))
  else if ¬ (u.isPrefixOf o) then .error (.errMsg (incorrectFormatMsg ⟨o⟩ ⟨u⟩))
  else
    match splitSp o with
    | _ :: tok :: _ =>
      let metric := trimNewlineSuffix tok
      match parseFloat metric with
      | none => .error (.numError ⟨metric⟩)
      | some i => if 0 < i then .error (.errMsg (notZeroMsg partition)) else .ok 0
    | _ => .error (.errMsg (incorrectFormatMsg ⟨o⟩ ⟨u⟩))

instance {ε α : Type} [DecidableEq ε] [DecidableEq α] : DecidableEq (Except ε α) := fun a b =>
  match a, b with
  | .ok x, .ok y => decidable_of_iff (x = y) (by simp)
  | .error x, .error y => decidable_of_iff (x = y) (by simp)
  | .ok _, .error _ => isFalse (by simp)
  | .error _, .ok _ => isFalse (by simp)

/-- Function `extractMetric` from healthchecker.go on Go strings (the logger argument
is dropped; the Go function's integer result is `0` on success and `-1`
exactly on the error cases, so it is modelled as `Except GoError Int`). -/
def extractMetric (output underepmetric : String) (partition : ℤ) : Except GoError Int :=
  extractMetricL output.data underepmetric.data partition

/-- Result of one `kube.ExecInPod` call: `(output, stderr, err)`. -/
structure ExecResult where
  stdout : String
  stderr : String
  err : Option GoError
deriving DecidableEq, Repr

/-- Message of the two stderr errors of `checkUnderReplicatedMetric`:
`errors.Errorf("exec in pod %s failed with stderror: %s ", podname, stderr)`
(including the trailing blank of the format string). -/
def execFailMsg (podname stderrText : String) : String :=
  "exec in pod " ++ podname ++ " failed with stderror: " ++ stderrText ++ " "

/-- Message of the wrap of an exec transport error:
`errors.Wrapf(err, "health check probe for pod %s failed", podname)`. -/
def probeFailMsg (podname : String) : String :=
  "health check probe for pod " ++ podname ++ " failed"

/-- Function `checkUnderReplicatedMetric` (healthchecker.go, lines 137-163) for one
replica.  `env k` is the result of the `kube.ExecInPod` call this invocation
performs (the command string built from `cmdunderreplicted` is a fixed
formatting detail that does not influence the modelled control flow); the
returned counter `k + 1` records that exactly one exec call was consumed.
Mirrors the source order: non-empty stderr is classified first (by
`strings.ContainsAny(stderr, curlnotfounderr)` — the character-set test the
source really performs), then a non-nil exec error is wrapped, then stdout
goes to `extractMetric` whose error (nil on success) is returned. -/
def checkUnderReplicatedMetric (env : ℕ → ExecResult) (k : ℕ) (podname : String)
    (partition : ℤ) : Option GoError × ℕ :=
  let r := env k
  let res : Option GoError :=
    if r.stderr ≠ "" then
      if containsAny r.stderr curlnotfounderr then
        some (.curlNotFound (.errMsg (execFailMsg podname r.stderr)))
      else some (.errMsg (execFailMsg podname r.stderr))
    else
      match r.err with
      | some e => some (.wrap (probeFailMsg podname) e)
      | none =>
        match extractMetric r.stdout underreplicatedmetric partition with
        | .error e => some e
        | .ok _ => none
  (res, k + 1)

/-- The partitions visited by the loop
`for partition := replicas - 1; partition >= 0; partition--`:
`[replicas-1, ..., 1, 0]` (empty when `replicas <= 0`). -/
def podsDescending (replicas : ℤ) : List ℤ :=
  List.map (fun i : ℕ => (i : ℤ)) (List.range replicas.toNat).reverse

/-- Loop body of `checkUnderReplicatedMetricAllPods`: check each partition in
order, short-circuiting on the first non-nil error; the pod name is
`fmt.Sprintf("%s-%v", stsname, partition)`. -/
def checkAllPodsAux (env : ℕ → ExecResult) (stsname : String) :
    ℕ → List ℤ → Option GoError × ℕ
  | k, [] => (none, k)
  | k, p :: ps =>
    match checkUnderReplicatedMetric env k (stsname ++ "-" ++ toString p) p with
    | (some e, k') => (some e, k')
    | (none, k') => checkAllPodsAux env stsname k' ps

/-- Function `checkUnderReplicatedMetricAllPods` (healthchecker.go, lines 167-177). -/
def checkUnderReplicatedMetricAllPods (env : ℕ → ExecResult) (k : ℕ)
    (stsname : String) (replicas : ℤ) : Option GoError × ℕ :=
  checkAllPodsAux env stsname k (podsDescending replicas)

/-- Constant `ExponentialBackOff.InitialInterval` (library default, 500ms), in seconds. -/
def initialIntervalQ : ℚ := mkRat 1 2

/-- Constant `ExponentialBackOff.Multiplier` (library default, 1.5). -/
def multiplierQ : ℚ := mkRat 3 2

/-- Setting `b.MaxInterval = 10 * time.Second` made by the source, in seconds. -/
def maxIntervalQ : ℚ := 10

/-- Setting `b.MaxElapsedTime = 3 * time.Minute` made by the source, in seconds. -/
def maxElapsedTimeQ : ℚ := 180

/-- Fuel bound for the retry loop; `retryAux` is shown never to exhaust it
(each inter-attempt sleep is at least 250ms, so at most
`180 / (1/4) + 1 = 721` sleeps fit under the elapsed-time cut-off). -/
def retryFuel : ℕ := 722

/-- Method `ExponentialBackOff.incrementCurrentInterval` of the backoff library:
caps the current interval at `MaxInterval` once it would exceed it
(`20/3 = MaxInterval / Multiplier`), else multiplies by `Multiplier`. -/
def incrementInterval (c : ℚ) : ℚ :=
  if mkRat 20 3 ≤ c then maxIntervalQ else qMul c multiplierQ

/-- Loop `backoff.Retry(f, b)` of the cenkalti/backoff library, for
`f = checkUnderReplicatedMetricAllPods`: run an attempt; on nil error stop
with success; otherwise `NextBackOff` returns `Stop` iff the elapsed time
exceeds `MaxElapsedTime` (then the attempt's error is returned), else the
loop sleeps the randomized interval `currentInterval * factors i` (the
library draws the factor uniformly from [1/2, 3/2], `RandomizationFactor`
0.5) and increments the current interval.  State: remaining fuel, exec
counter, current nominal interval, elapsed time (the sum of the sleeps;
attempts are modelled as instantaneous), attempt index.  Returns the final
error (`none` = converged), the final exec counter and the total time slept;
`none` means fuel ran out (shown impossible for in-range factors). -/
def retryAux (env : ℕ → ExecResult) (factors : ℕ → ℚ) (stsname : String) (replicas : ℤ) :
    ℕ → ℕ → ℚ → ℚ → ℕ → Option (Option GoError × ℕ × ℚ)
  | 0, _, _, _, _ => none
  | fuel + 1, k, current, elapsed, i =>
    match checkUnderReplicatedMetricAllPods env k stsname replicas with
    | (none, k') => some (none, k', elapsed)
    | (some e, k') =>
      if maxElapsedTimeQ < elapsed then some (some e, k', elapsed)
      else retryAux env factors stsname replicas fuel k' (incrementInterval current)
        (qAdd elapsed (qMul current (factors i))) (i + 1)

/-- Message of `errors.Wrapf(err, "replicas check probe failed for cluster %s",
logSuffix)`. -/
def replicasCheckFailMsg (logSuffix : String) : String :=
  "replicas check probe failed for cluster " ++ logSuffix

/-- Function `waitUntilUnderReplicatedMetricIsZero` (healthchecker.go, lines 122-133):
a fresh `ExponentialBackOff` (initial interval 500ms, elapsed time 0) with
`MaxElapsedTime` 3 minutes and `MaxInterval` 10 seconds drives
`backoff.Retry` over the fleet sweep; a failing retry is wrapped with the
cluster context, success is passed through. -/
def waitUntilUnderReplicatedMetricIsZero (env : ℕ → ExecResult) (factors : ℕ → ℚ)
    (k : ℕ) (stsname : String) (replicas : ℤ) (logSuffix : String) :
    Option (Option GoError × ℕ × ℚ) :=
  match retryAux env factors stsname replicas retryFuel k initialIntervalQ 0 0 with
  | none => none
  | some (none, k', s) => some (none, k', s)
  | some (some e, k', s) => some (some (.wrap (replicasCheckFailMsg logSuffix) e), k', s)

/-- Observable outcome of one `Probe` invocation: the returned error (`none`
is Go's nil), the total time slept (fixed sleeps plus backoff sleeps, in
seconds), the number of exec calls consumed, the number of backoff-polled
sweep passes (`waitUntilUnderReplicatedMetricIsZero` invocations) that ran,
and whether the fixed 22-second settle sleep happened. -/
structure ProbeResult where
  err : Option GoError
  slept : ℚ
  calls : ℕ
  polls : ℕ
  settleSlept : Bool
deriving DecidableEq, Repr

/-- The convergence-check phase of `Probe` (healthchecker.go, lines 95-117),
entered after the pre-check: a first backoff-polled pass whose non-nil error
is returned as-is (line 99-101); then the source's line-103 type assertion
`_, ok := err.(CurlNotFoundErr)`, which at that point always sees the nil
error (any non-nil error was already returned), so it never fires; then the
unconditional `time.Sleep(22 * time.Second)` and a second backoff-polled pass
whose error — nil or not — is the probe's result. -/
def probeConvergenceChecks (env : ℕ → ExecResult) (factors : ℕ → ℚ) (k : ℕ)
    (stsname : String) (replicas : ℤ) (logSuffix : String) : Option ProbeResult :=
  match waitUntilUnderReplicatedMetricIsZero env factors k stsname replicas logSuffix with
  | none => none
  | some (some e, k2, s1) => some ⟨some e, s1, k2, 1, false⟩
  | some (none, k2, s1) =>
    if isCurlNotFoundOpt none then some ⟨none, s1, k2, 1, false⟩
    else
      match waitUntilUnderReplicatedMetricIsZero env factors k2 stsname replicas logSuffix with
      | none => none
      | some (e2, k3, s2) => some ⟨e2, qAdd (qAdd s1 22) s2, k3, 2, true⟩

/-- Modelled from the spec: `kube.HandleStsError` lives outside the given
source tree; the spec treats the metadata-lookup failure as fatal and
propagated to the caller, so it is modelled as returning the error itself. -/
def handleStsError (e : GoError) : GoError := e

/-- Message of `errors.Wrapf(err, "error rolling update stategy on pod %d",
nodeID)` (sic, the typo is the source's). -/
def rollingUpdateFailMsg (nodeID : ℤ) : String :=
  "error rolling update stategy on pod " ++ toString nodeID

/-- Function `Probe` (healthchecker.go, lines 73-118).  `getSts` is the result of the
StatefulSet lookup (error, or the replica count `*sts.Spec.Replicas`);
`readyErr` the result of `scale.WaitUntilStatefulSetIsReadyToServe`.  Then,
mirroring the source: the unconditional pre-check fleet sweep, whose error —
if it is a `CurlNotFoundErr` — triggers the fixed
`time.Sleep(sleepBetweenUpdates)` fallback and a nil return, and is otherwise
discarded (the `if` at line 87 has no other return); then the
convergence-check phase. -/
def Probe (env : ℕ → ExecResult) (factors : ℕ → ℚ) (getSts : Except GoError ℤ)
    (readyErr : Option GoError) (stsname logSuffix : String) (nodeID : ℤ) :
    Option ProbeResult :=
  match getSts with
  | .error e => some ⟨some (handleStsError e), 0, 0, 0, false⟩
  | .ok replicas =>
    match readyErr with
    | some e => some ⟨some (.wrap (rollingUpdateFailMsg nodeID) e), 0, 0, 0, false⟩
    | none =>
      match checkUnderReplicatedMetricAllPods env 0 stsname replicas with
      | (pre, k1) =>
        if isCurlNotFoundOpt pre then
          some ⟨none, sleepBetweenUpdates, k1, 0, false⟩
        else probeConvergenceChecks env factors k1 stsname replicas logSuffix

/-- Formalisation of the specification's words "splits on the first whitespace
run" (spec-side definition, for comparison with the source's behaviour):
the part before the first maximal run of whitespace characters and the part
after it, or `none` when the line has no whitespace at all. -/
def splitFirstWhitespaceRun (l : List Char) : Option (List Char × List Char) :=
  let before := l.takeWhile (fun c => ¬ c.isWhitespace)
  let rest := l.dropWhile (fun c => ¬ c.isWhitespace)
  match rest with
  | [] => none
  | _ => some (before, rest.dropWhile Char.isWhitespace)

/-- Environment in which every exec call returns a healthy scrape line with
metric value 0 and empty stderr. -/
def envGood : ℕ → ExecResult :=
  fun _ => ⟨"ranges_underreplicated\x7bstore=\"0\"\x7d 0\n", "", none⟩

/-- Environment in which every exec call fails with the curl-not-found
stderr text. -/
def envCurl : ℕ → ExecResult := fun _ => ⟨"", curlnotfounderr, none⟩

/-- Environment in which every exec call returns a scrape line with metric
value 1 (never converges). -/
def envBad : ℕ → ExecResult :=
  fun _ => ⟨"ranges_underreplicated\x7bstore=\"0\"\x7d 1\n", "", none⟩

/-- Environment whose first exec call (the pre-check of a 1-replica fleet)
succeeds but in which every later call fails with the curl-not-found stderr. -/
def envMix : ℕ → ExecResult :=
  fun j => if j = 0 then ⟨"ranges_underreplicated\x7bstore=\"0\"\x7d 0\n", "", none⟩
    else ⟨"", curlnotfounderr, none⟩

/-- Environment whose first exec call fails with stderr "xyz" (none of its
characters occur in `curlnotfounderr`, so the source classifies it as a plain
exec failure, not `CurlNotFoundErr`) and whose later calls are healthy. -/
def envPreFail : ℕ → ExecResult :=
  fun j => if j = 0 then ⟨"", "xyz", none⟩
    else ⟨"ranges_underreplicated\x7bstore=\"0\"\x7d 0\n", "", none⟩

/-- Like `envPreFail` but with a different (still non-curl) pre-check stderr. -/
def envPreFail2 : ℕ → ExecResult :=
  fun j => if j = 0 then ⟨"", "zzz", none⟩
    else ⟨"ranges_underreplicated\x7bstore=\"0\"\x7d 0\n", "", none⟩

/-- Environment whose first exec call returns a healthy line and whose second
returns a line with metric value 1; with two replicas the sweep visits
pod 1 first (healthy) and then pod 0 (not converged). -/
def envSecondStops : ℕ → ExecResult :=
  fun j => if j = 0 then ⟨"ranges_underreplicated\x7bstore=\"1\"\x7d 0\n", "", none⟩
    else ⟨"ranges_underreplicated\x7bstore=\"0\"\x7d 1\n", "", none⟩

/-- The constant randomization-factor stream 1 (the midpoint of the
library's [1/2, 3/2] range). -/
def factorsOne : ℕ → ℚ := fun _ => 1

/-! ### Helper lemmas -/

theorem qAdd_eq (a b : ℚ) : qAdd a b = a + b := by
  have ha : ((a.den : ℚ)) ≠ 0 := Nat.cast_ne_zero.mpr a.den_pos.ne'
  have hb : ((b.den : ℚ)) ≠ 0 := Nat.cast_ne_zero.mpr b.den_pos.ne'
  rw [qAdd, Rat.mkRat_eq_div]
  push_cast
  conv_rhs => rw [← Rat.num_div_den a, ← Rat.num_div_den b]
  rw [div_add_div _ _ ha hb]
  ring_nf

theorem qMul_eq (a b : ℚ) : qMul a b = a * b := by
  rw [qMul, Rat.mkRat_eq_div]
  push_cast
  conv_rhs => rw [← Rat.num_div_den a, ← Rat.num_div_den b]
  rw [div_mul_div_comm]

theorem splitSp_ne_nil : ∀ l : List Char, splitSp l ≠ []
  | [] => by simp [splitSp]
  | c :: t => by
    by_cases hc : c = ' '
    · simp [splitSp, hc]
    · simp only [splitSp, if_neg hc]
      cases hsp : splitSp t with
      | nil => simp
      | cons h r => simp

theorem splitSp_no_space : ∀ {l : List Char}, ' ' ∉ l → splitSp l = [l]
  | [], _ => rfl
  | c :: t, h => by
    have hc : ¬ (c = ' ') := fun hE => h (hE ▸ List.mem_cons_self c t)
    have ht : ' ' ∉ t := fun hm => h (List.mem_cons_of_mem c hm)
    simp only [splitSp, if_neg hc, splitSp_no_space ht]

theorem splitSp_append_space {l₂ : List Char} :
    ∀ {l₁ : List Char}, ' ' ∉ l₁ → splitSp (l₁ ++ ' ' :: l₂) = l₁ :: splitSp l₂
  | [], _ => by simp [splitSp]
  | c :: t, h => by
    have hc : ¬ (c = ' ') := fun hE => h (hE ▸ List.mem_cons_self c t)
    have ht : ' ' ∉ t := fun hm => h (List.mem_cons_of_mem c hm)
    simp only [List.cons_append, splitSp, if_neg hc, List.append_eq,
      splitSp_append_space ht]

theorem splitSp_length_cases : ∀ l : List Char, 2 ≤ (splitSp l).length ↔ ' ' ∈ l := by
  intro l
  induction l with
  | nil => simp [splitSp]
  | cons c t ih =>
    by_cases hc : c = ' '
    · subst hc
      simp only [splitSp, if_pos rfl, List.length_cons]
      constructor
      · intro _; exact List.mem_cons_self _ _
      · intro _
        cases hsp : splitSp t with
        | nil => exact absurd hsp (splitSp_ne_nil t)
        | cons h r => simp [hsp]
    · simp only [splitSp, if_neg hc]
      cases hsp : splitSp t with
      | nil => exact absurd hsp (splitSp_ne_nil t)
      | cons h r =>
        rw [hsp] at ih
        simp only [List.length_cons, List.mem_cons] at ih ⊢
        constructor
        · intro hlen; exact Or.inr (ih.mp hlen)
        · intro hmem
          cases hmem with
          | inl hE => exact absurd hE.symm hc
          | inr hm => exact ih.mpr hm

theorem isPrefixOf_append_self (l₁ l₂ : List Char) : l₁.isPrefixOf (l₁ ++ l₂) = true :=
  List.isPrefixOf_iff_prefix.mpr (List.prefix_append l₁ l₂)

theorem trimNewlineSuffix_concat (l : List Char) : trimNewlineSuffix (l ++ ['\n']) = l := by
  simp [trimNewlineSuffix, List.getLast?_concat, List.dropLast_concat]

theorem nonExisting_ne_incorrectFormat (p : ℤ) (o u : String) :
    nonExistingMsg p ≠ incorrectFormatMsg o u := by
  intro h
  have h2 : (nonExistingMsg p).data.head? = (incorrectFormatMsg o u).data.head? := by rw [h]
  rw [nonExistingMsg, incorrectFormatMsg] at h2
  rw [String.data_append, String.data_append, String.data_append] at h2
  exact absurd (show some 'n' = some 'i' from h2) (by decide)

/-! ### Claims C5, C6, C7 — the metric parser -/

/-- C5: for every raw line not starting with the expected label, and in
particular for every non-empty such line, `extractMetric` fails with the
incorrect-format (prefix-mismatch) error and never returns a numeric value;
the empty raw line fails with the distinct non-existing-metric error, and that
test is performed before the prefix test (the first conjunct needs no
prefix hypothesis at all). -/
theorem extractMetric_empty_and_mismatch (output underepmetric : String) (p : ℤ) :
    (output.data = [] →
      extractMetric output underepmetric p = .error (.errMsg (nonExistingMsg p))) ∧
    (output.data ≠ [] → underepmetric.data.isPrefixOf output.data = false →
      extractMetric output underepmetric p =
          .error (.errMsg (incorrectFormatMsg output underepmetric)) ∧
        ∀ n : Int, extractMetric output underepmetric p ≠ .ok n) ∧
    GoError.errMsg (nonExistingMsg p) ≠
      GoError.errMsg (incorrectFormatMsg output underepmetric) := by
  refine ⟨?_, ?_, ?_⟩
  · intro h
    simp [extractMetric, extractMetricL, h]
  · intro h1 h2
    have key : extractMetric output underepmetric p =
        .error (.errMsg (incorrectFormatMsg output underepmetric)) := by
      simp [extractMetric, extractMetricL, h1, h2]
    exact ⟨key, fun n hn => by rw [key] at hn; exact Except.noConfusion hn⟩
  · intro h
    exact nonExisting_ne_incorrectFormat p output underepmetric (GoError.errMsg.inj h)

/-- C5 witness: the theorem applied at the empty line and at a concrete
non-matching line. -/
theorem extractMetric_empty_and_mismatch_witness :
    extractMetric "" underreplicatedmetric 5 = .error (.errMsg (nonExistingMsg 5)) ∧
    extractMetric "garbage" underreplicatedmetric 5 =
      .error (.errMsg (incorrectFormatMsg "garbage" underreplicatedmetric)) ∧
    GoError.errMsg (nonExistingMsg 5) ≠
      GoError.errMsg (incorrectFormatMsg "garbage" underreplicatedmetric) :=
  ⟨(extractMetric_empty_and_mismatch "" underreplicatedmetric 5).1 rfl,
   ((extractMetric_empty_and_mismatch "garbage" underreplicatedmetric 5).2.1
      (by decide) (by decide)).1,
   (extractMetric_empty_and_mismatch "garbage" underreplicatedmetric 5).2.2⟩

/-- C6 (amended): after the empty and label checks, the line is split on
single space characters (`strings.Split(output, " ")`); when the line
contains no space the incorrect-format ("malformed line") error is returned;
otherwise the token between the first and the second space (which is empty
when two spaces are adjacent, and which is not reached by whitespace other
than the space character) has one trailing newline trimmed and is parsed as a
float, the parse error being returned exactly when that parse fails, and a
parsed value `v` giving the not-zero error iff `0 < v`. -/
theorem extractMetric_split_and_parse (o u : String) (p : ℤ)
    (hne : o.data ≠ []) (hpre : u.data.isPrefixOf o.data = true) :
    (' ' ∉ o.data →
      extractMetric o u p = .error (.errMsg (incorrectFormatMsg o u))) ∧
    (∀ a tok rest, splitSp o.data = a :: tok :: rest →
      (parseFloat (trimNewlineSuffix tok) = none →
        extractMetric o u p = .error (.numError ⟨trimNewlineSuffix tok⟩)) ∧
      (∀ v, parseFloat (trimNewlineSuffix tok) = some v →
        extractMetric o u p =
          if 0 < v then .error (.errMsg (notZeroMsg p)) else .ok 0)) ∧
    (2 ≤ (splitSp o.data).length ↔ ' ' ∈ o.data) := by
  refine ⟨?_, ?_, splitSp_length_cases o.data⟩
  · intro hns
    rw [extractMetric]
    simp only [extractMetricL, if_neg hne, hpre, splitSp_no_space hns]
    simp
  · intro a tok rest h
    constructor
    · intro hp
      rw [extractMetric]
      simp only [extractMetricL, if_neg hne, hpre, h, hp]
      simp
    · intro v hp
      rw [extractMetric]
      simp only [extractMetricL, if_neg hne, hpre, h, hp]
      simp

/-- C6 witness: the amended theorem applied at a concrete line with one
space and the value 3.5. -/
theorem extractMetric_split_and_parse_witness :
    extractMetric "ranges_underreplicated\x7bstore= 3.5\n" underreplicatedmetric 3 =
      .error (.errMsg (notZeroMsg 3)) := by
  have h := ((extractMetric_split_and_parse "ranges_underreplicated\x7bstore= 3.5\n"
      underreplicatedmetric 3 (by decide) (by decide)).2.1
        underreplicatedmetric.data "3.5\n".data [] (by decide)).2 (mkRat 7 2) (by decide)
  exact h.trans (if_pos (by decide))

/-- C6 counterexample: the claim says the line is split "on the first
whitespace run"; on the line `"<label>\t3"` that reading yields the two
tokens `<label>` and `3`, whose second token parses (value 3), so the claim
predicts no malformed-line failure — but the source splits on single space
characters only (`strings.Split(output, " ")`), finds one token, and fails
with the malformed-line (incorrect-format) error. -/
theorem extractMetric_whitespace_run_counterexample :
    splitFirstWhitespaceRun ("ranges_underreplicated\x7bstore=\t3" : String).data =
      some (underreplicatedmetric.data, ['3']) ∧
    parseFloat ['3'] = some 3 ∧
    extractMetric "ranges_underreplicated\x7bstore=\t3" underreplicatedmetric 0 =
      .error (.errMsg
        (incorrectFormatMsg "ranges_underreplicated\x7bstore=\t3" underreplicatedmetric)) := by
  decide

/-- C7: for every well-formed line `"<label> v\n"` (a space-free token `v`
that parses to the value `v`), extraction yields the not-zero
(not-converged) error exactly when `0 < v`, and succeeds (converged) when
`v ≤ 0`; the positive case is an ordinary error produced after a successful
parse, not a parser failure. -/
theorem extractMetric_value_vs_convergence (s : List Char) (v : ℚ) (p : ℤ)
    (hs : ' ' ∉ s) (hv : parseFloat s = some v) :
    extractMetric ⟨underreplicatedmetric.data ++ ' ' :: (s ++ ['\n'])⟩ underreplicatedmetric p =
      if 0 < v then .error (.errMsg (notZeroMsg p)) else .ok 0 := by
  have hne : underreplicatedmetric.data ++ ' ' :: (s ++ ['\n']) ≠ [] := by
    intro h
    exact absurd (List.append_eq_nil.mp h).1 (by decide)
  have hnp : ' ' ∉ s ++ ['\n'] := by
    intro hm
    rcases List.mem_append.mp hm with h1 | h2
    · exact hs h1
    · simp at h2
  rw [extractMetric]
  show extractMetricL (underreplicatedmetric.data ++ ' ' :: (s ++ ['\n']))
    underreplicatedmetric.data p = _
  simp only [extractMetricL, if_neg hne, isPrefixOf_append_self,
    splitSp_append_space (show ' ' ∉ underreplicatedmetric.data by decide),
    splitSp_no_space hnp, trimNewlineSuffix_concat, hv]
  simp

/-- C7 witness: the theorem applied at the lines `"<label> 0\n"` (converged)
and `"<label> 3.5\n"` (not converged). -/
theorem extractMetric_value_vs_convergence_witness :
    extractMetric ⟨underreplicatedmetric.data ++ ' ' :: ("0".data ++ ['\n'])⟩
      underreplicatedmetric 1 = .ok 0 ∧
    extractMetric ⟨underreplicatedmetric.data ++ ' ' :: ("3.5".data ++ ['\n'])⟩
      underreplicatedmetric 1 = .error (.errMsg (notZeroMsg 1)) := by
  constructor
  · have h := extractMetric_value_vs_convergence "0".data 0 1 (by decide) (by decide)
    exact h.trans (if_neg (by decide))
  · have h := extractMetric_value_vs_convergence "3.5".data (mkRat 7 2) 1
      (by decide) (by decide)
    exact h.trans (if_pos (by decide))

/-! ### Claim C4 — the fleet sweep -/

theorem checkAllPodsAux_converge (env : ℕ → ExecResult) (stsname : String) :
    ∀ (ps : List ℤ) (k : ℕ),
      (∀ j (hj : j < ps.length),
        (checkUnderReplicatedMetric env (k + j)
          (stsname ++ "-" ++ toString ps[j]) ps[j]).1 = none) →
      checkAllPodsAux env stsname k ps = (none, k + ps.length)
  | [], k, _ => by simp [checkAllPodsAux]
  | p :: ps, k, h => by
    have h0 := h 0 (by simp)
    simp only [List.getElem_cons_zero, Nat.add_zero] at h0
    have hpair : checkUnderReplicatedMetric env k (stsname ++ "-" ++ toString p) p =
        (none, k + 1) :=
      Prod.ext h0 rfl
    have h' : ∀ j (hj : j < ps.length),
        (checkUnderReplicatedMetric env (k + 1 + j)
          (stsname ++ "-" ++ toString ps[j]) ps[j]).1 = none := by
      intro j hj
      have := h (j + 1) (by simpa using Nat.succ_lt_succ hj)
      simp only [List.getElem_cons_succ] at this
      rw [show k + 1 + j = k + (j + 1) by omega]
      exact this
    simp only [checkAllPodsAux, hpair]
    rw [checkAllPodsAux_converge env stsname ps (k + 1) h']
    simp only [List.length_cons]
    congr 1
    omega

theorem checkAllPodsAux_shortcircuit (env : ℕ → ExecResult) (stsname : String) :
    ∀ (ps : List ℤ) (k j₀ : ℕ) (hj₀ : j₀ < ps.length) (e : GoError),
      (∀ j, j < j₀ → ∀ (hj2 : j < ps.length),
        (checkUnderReplicatedMetric env (k + j)
          (stsname ++ "-" ++ toString ps[j]) ps[j]).1 = none) →
      (checkUnderReplicatedMetric env (k + j₀)
        (stsname ++ "-" ++ toString ps[j₀]) ps[j₀]).1 = some e →
      checkAllPodsAux env stsname k ps = (some e, k + j₀ + 1)
  | [], _, j₀, hj₀, _, _, _ => absurd hj₀ (by simp)
  | p :: ps, k, 0, hj₀, e, _, h0 => by
    simp only [List.getElem_cons_zero, Nat.add_zero] at h0
    have hpair : checkUnderReplicatedMetric env k (stsname ++ "-" ++ toString p) p =
        (some e, k + 1) :=
      Prod.ext h0 rfl
    simp only [checkAllPodsAux, hpair]
  | p :: ps, k, j₀ + 1, hj₀, e, h, h0 => by
    have hz := h 0 (Nat.succ_pos j₀) (by simp)
    simp only [List.getElem_cons_zero, Nat.add_zero] at hz
    have hpair : checkUnderReplicatedMetric env k (stsname ++ "-" ++ toString p) p =
        (none, k + 1) :=
      Prod.ext hz rfl
    have h' : ∀ j, j < j₀ → ∀ (hj2 : j < ps.length),
        (checkUnderReplicatedMetric env (k + 1 + j)
          (stsname ++ "-" ++ toString ps[j]) ps[j]).1 = none := by
      intro j hj hj2
      have := h (j + 1) (Nat.succ_lt_succ hj) (by simpa using Nat.succ_lt_succ hj2)
      simp only [List.getElem_cons_succ] at this
      rw [show k + 1 + j = k + (j + 1) by omega]
      exact this
    have hj₀' : j₀ < ps.length := by simpa using Nat.lt_of_succ_lt_succ hj₀
    have h0' : (checkUnderReplicatedMetric env (k + 1 + j₀)
        (stsname ++ "-" ++ toString ps[j₀]) ps[j₀]).1 = some e := by
      simp only [List.getElem_cons_succ] at h0
      rw [show k + 1 + j₀ = k + (j₀ + 1) by omega]
      exact h0
    simp only [checkAllPodsAux, hpair]
    rw [checkAllPodsAux_shortcircuit env stsname ps (k + 1) j₀
      (by simpa using Nat.lt_of_succ_lt_succ hj₀) e h' h0']
    congr 1
    omega

theorem podsDescending_length (n : ℕ) : (podsDescending (n : ℤ)).length = n := by
  rw [podsDescending, List.length_map, List.length_reverse, List.length_range,
    Int.toNat_natCast]

theorem podsDescending_getElem (n j : ℕ) (hj : j < n)
    (hj2 : j < (podsDescending (n : ℤ)).length) :
    (podsDescending (n : ℤ))[j] = ((n - 1 - j : ℕ) : ℤ) := by
  simp only [podsDescending, List.getElem_map, List.getElem_reverse, List.getElem_range]
  congr 1
  simp

/-- C4: for a fleet of `n` replicas the sweep visits partitions in the order
`n-1, n-2, ..., 0` (conjunct 1: the `j`-th visited partition is `n-1-j`);
if every replica converges the sweep returns nil after consuming exactly `n`
exec results (conjunct 2); and if the first non-converged replica is the one
visited at step `j₀`, the sweep returns that replica's error immediately,
having consumed exactly `j₀ + 1` exec results — so no check ran for any
lower-index replica (conjunct 3). -/
theorem checkAllPods_order_and_shortcircuit (env : ℕ → ExecResult)
    (stsname : String) (n k : ℕ) :
    (∀ j, j < n → (podsDescending (n : ℤ))[j]? = some ((n - 1 - j : ℕ) : ℤ)) ∧
    ((∀ j, j < n →
        (checkUnderReplicatedMetric env (k + j)
          (stsname ++ "-" ++ toString ((n - 1 - j : ℕ) : ℤ)) ((n - 1 - j : ℕ) : ℤ)).1 = none) →
      checkUnderReplicatedMetricAllPods env k stsname (n : ℤ) = (none, k + n)) ∧
    (∀ j₀, j₀ < n → ∀ e : GoError,
      (∀ j, j < j₀ →
        (checkUnderReplicatedMetric env (k + j)
          (stsname ++ "-" ++ toString ((n - 1 - j : ℕ) : ℤ)) ((n - 1 - j : ℕ) : ℤ)).1 = none) →
      (checkUnderReplicatedMetric env (k + j₀)
        (stsname ++ "-" ++ toString ((n - 1 - j₀ : ℕ) : ℤ)) ((n - 1 - j₀ : ℕ) : ℤ)).1 = some e →
      checkUnderReplicatedMetricAllPods env k stsname (n : ℤ) = (some e, k + j₀ + 1)) := by
  refine ⟨?_, ?_, ?_⟩
  · intro j hj
    have hj2 : j < (podsDescending (n : ℤ)).length := by rw [podsDescending_length]; exact hj
    rw [List.getElem?_eq_getElem hj2, podsDescending_getElem n j hj hj2]
  · intro hall
    rw [checkUnderReplicatedMetricAllPods,
      checkAllPodsAux_converge env stsname (podsDescending (n : ℤ)) k ?_,
      podsDescending_length]
    intro j hj
    have hjn : j < n := by rwa [podsDescending_length] at hj
    rw [podsDescending_getElem n j hjn hj]
    exact hall j hjn
  · intro j₀ hj₀ e h h0
    rw [checkUnderReplicatedMetricAllPods,
      checkAllPodsAux_shortcircuit env stsname (podsDescending (n : ℤ)) k j₀
        (by rwa [podsDescending_length]) e ?_ ?_]
    · intro j hj hj2
      have hjn : j < n := by rwa [podsDescending_length] at hj2
      rw [podsDescending_getElem n j hjn hj2]
      exact h j hj
    · have hj2 : j₀ < (podsDescending (n : ℤ)).length := by rwa [podsDescending_length]
      rw [podsDescending_getElem n j₀ hj₀ hj2]
      exact h0

/-- C4 witness: with two replicas, an all-healthy environment converges after
exactly two checks, and an environment whose second-visited replica (pod 0)
is not converged stops after exactly two checks with pod 0's error. -/
theorem checkAllPods_order_and_shortcircuit_witness :
    (podsDescending (2 : ℤ))[0]? = some 1 ∧
    checkUnderReplicatedMetricAllPods envGood 0 "crdb" (2 : ℤ) = (none, 2) ∧
    checkUnderReplicatedMetricAllPods envSecondStops 0 "crdb" (2 : ℤ) =
      (some (.errMsg (notZeroMsg 0)), 2) := by
  refine ⟨?_, ?_, ?_⟩
  · exact (checkAllPods_order_and_shortcircuit envGood "crdb" 2 0).1 0 (by decide)
  · exact (checkAllPods_order_and_shortcircuit envGood "crdb" 2 0).2.1 (by decide)
  · exact (checkAllPods_order_and_shortcircuit envSecondStops "crdb" 2 0).2.2 1 (by decide)
      (.errMsg (notZeroMsg 0)) (by decide) (by decide)

/-! ### Claim C8 — the backoff poller -/

theorem mkRat_half : (mkRat 1 2 : ℚ) = 1 / 2 := by
  rw [Rat.mkRat_eq_div]; norm_num

theorem mkRat_threeHalves : (mkRat 3 2 : ℚ) = 3 / 2 := by
  rw [Rat.mkRat_eq_div]; norm_num

theorem mkRat_twentyThirds : (mkRat 20 3 : ℚ) = 20 / 3 := by
  rw [Rat.mkRat_eq_div]; norm_num

theorem incrementInterval_bounds {c : ℚ} (h1 : 1 / 2 ≤ c) (h2 : c ≤ 10) :
    1 / 2 ≤ incrementInterval c ∧ incrementInterval c ≤ 10 := by
  rw [incrementInterval, mkRat_twentyThirds]
  have hmax : maxIntervalQ = 10 := rfl
  split_ifs with h
  · rw [hmax]; norm_num
  · rw [qMul_eq, show multiplierQ = 3 / 2 from mkRat_threeHalves]
    push_neg at h
    constructor <;> nlinarith

theorem retryAux_terminates (env : ℕ → ExecResult) (factors : ℕ → ℚ)
    (stsname : String) (replicas : ℤ)
    (hfac : ∀ n, mkRat 1 2 ≤ factors n ∧ factors n ≤ mkRat 3 2)
    (hns : ∀ j, ((checkUnderReplicatedMetricAllPods env j stsname replicas).1).isSome = true) :
    ∀ fuel : ℕ, 1 ≤ fuel → ∀ (k : ℕ) (cur el : ℚ) (i : ℕ),
      1 / 2 ≤ cur → cur ≤ 10 → 0 ≤ el → el ≤ 195 →
      180 < el + ((fuel : ℚ) - 1) * (1 / 4) →
      ∃ j e k' s, checkUnderReplicatedMetricAllPods env j stsname replicas = (some e, k') ∧
        retryAux env factors stsname replicas fuel k cur el i = some (some e, k', s) ∧
        0 ≤ s ∧ s ≤ 195 := by
  intro fuel
  induction fuel with
  | zero => intro h; exact absurd h (by norm_num)
  | succ f ih =>
    intro _ k cur el i hc1 hc2 he0 he195 hbudget
    obtain ⟨e, he⟩ := Option.isSome_iff_exists.mp (hns k)
    cases hx : checkUnderReplicatedMetricAllPods env k stsname replicas with
    | mk oe k2 =>
      rw [hx] at he
      have he' : oe = some e := he
      subst he'
      have h180 : maxElapsedTimeQ = 180 := rfl
      simp only [retryAux, hx]
      by_cases hstop : maxElapsedTimeQ < el
      · refine ⟨k, e, k2, el, hx, ?_, he0, he195⟩
        rw [if_pos hstop]
      · have hel : el ≤ 180 := by rw [h180] at hstop; exact not_lt.mp hstop
        have hbudget' : (180 : ℚ) < el + (f : ℚ) * (1 / 4) := by
          push_cast at hbudget
          linarith
        have hf : 1 ≤ f := by
          rcases Nat.eq_zero_or_pos f with h0 | h1
          · subst h0; norm_num at hbudget'; linarith
          · exact h1
        have hfl : 1 / 2 ≤ factors i := by
          have := (hfac i).1; rwa [mkRat_half] at this
        have hfu : factors i ≤ 3 / 2 := by
          have := (hfac i).2; rwa [mkRat_threeHalves] at this
        have hprod_lo : 1 / 4 ≤ cur * factors i := by nlinarith
        have hprod_hi : cur * factors i ≤ 15 := by nlinarith
        have hel'_eq : qAdd el (qMul cur (factors i)) = el + cur * factors i := by
          rw [qAdd_eq, qMul_eq]
        have hcur' := incrementInterval_bounds hc1 hc2
        obtain ⟨j, e', k', s, hj, hrw, hs0, hs195⟩ :=
          ih hf k2 (incrementInterval cur) (qAdd el (qMul cur (factors i))) (i + 1)
            hcur'.1 hcur'.2
            (by rw [hel'_eq]; linarith)
            (by rw [hel'_eq]; linarith)
            (by rw [hel'_eq]; push_cast; linarith)
        refine ⟨j, e', k', s, hj, ?_, hs0, hs195⟩
        rw [if_neg hstop]
        exact hrw

/-- C8: the poller configured by `waitUntilUnderReplicatedMetricIsZero`
(initial interval 500ms, multiplier 1.5, randomization factor 0.5,
`MaxInterval` 10s, `MaxElapsedTime` 3min) terminates.  Conjunct 1: against a
sweep that never converges it stops — with fuel to spare — and returns the
failure wrapping the error observed by the last sweep attempt, having slept
at most `195 = 180 + 1.5 * 10` seconds (the 3-minute budget plus one maximal
randomized interval, since `Stop` is only detected at the next attempt
boundary).  Conjunct 2: a sweep that converges on the first attempt returns
nil immediately with zero sleep.  Conjunct 3: the nominal current interval is
invariantly capped at `MaxInterval = 10` seconds (the actual randomized
sleep is `currentInterval * factor`, factor ≤ 3/2). -/
theorem waitUntil_backoff_budget (env : ℕ → ExecResult) (factors : ℕ → ℚ) (k : ℕ)
    (stsname logSuffix : String) (replicas : ℤ)
    (hfac : ∀ n, mkRat 1 2 ≤ factors n ∧ factors n ≤ mkRat 3 2) :
    ((∀ j, ((checkUnderReplicatedMetricAllPods env j stsname replicas).1).isSome = true) →
      ∃ j e k' s, checkUnderReplicatedMetricAllPods env j stsname replicas = (some e, k') ∧
        waitUntilUnderReplicatedMetricIsZero env factors k stsname replicas logSuffix =
          some (some (.wrap (replicasCheckFailMsg logSuffix) e), k', s) ∧
        0 ≤ s ∧ s ≤ 195) ∧
    (∀ k2, checkUnderReplicatedMetricAllPods env k stsname replicas = (none, k2) →
      waitUntilUnderReplicatedMetricIsZero env factors k stsname replicas logSuffix =
        some (none, k2, 0)) ∧
    (∀ c : ℚ, 1 / 2 ≤ c → c ≤ maxIntervalQ →
      1 / 2 ≤ incrementInterval c ∧ incrementInterval c ≤ maxIntervalQ) := by
  refine ⟨?_, ?_, ?_⟩
  · intro hns
    obtain ⟨j, e, k', s, hj, hrw, hs0, hs195⟩ :=
      retryAux_terminates env factors stsname replicas hfac hns retryFuel
        (by norm_num [retryFuel]) k initialIntervalQ 0 0
        (by rw [show initialIntervalQ = mkRat 1 2 from rfl, mkRat_half])
        (by rw [show initialIntervalQ = mkRat 1 2 from rfl, mkRat_half]; norm_num)
        le_rfl (by norm_num) (by norm_num [retryFuel])
    refine ⟨j, e, k', s, hj, ?_, hs0, hs195⟩
    rw [waitUntilUnderReplicatedMetricIsZero, hrw]
  · intro k2 h
    rw [waitUntilUnderReplicatedMetricIsZero,
      show retryFuel = 721 + 1 from rfl]
    simp only [retryAux, h]
  · intro c h1 h2
    exact incrementInterval_bounds h1 (by rwa [show maxIntervalQ = 10 from rfl] at h2)

/-- C8 witness: the theorem applied to a concrete never-converging
environment (every scrape reads 1) and to a concrete immediately-converging
environment. -/
theorem waitUntil_backoff_budget_witness :
    (∃ j e k' s, checkUnderReplicatedMetricAllPods envBad j "crdb" 1 = (some e, k') ∧
      waitUntilUnderReplicatedMetricIsZero envBad factorsOne 0 "crdb" 1 "ts" =
        some (some (.wrap (replicasCheckFailMsg "ts") e), k', s) ∧ 0 ≤ s ∧ s ≤ 195) ∧
    waitUntilUnderReplicatedMetricIsZero envGood factorsOne 0 "crdb" 1 "ts" =
      some (none, 1, 0) := by
  constructor
  · exact (waitUntil_backoff_budget envBad factorsOne 0 "crdb" "ts" 1
      (fun _ => ⟨(by decide : mkRat 1 2 ≤ (1 : ℚ)), (by decide : (1 : ℚ) ≤ mkRat 3 2)⟩)).1
      (fun j => rfl)
  · exact (waitUntil_backoff_budget envGood factorsOne 0 "crdb" "ts" 1
      (fun _ => ⟨(by decide : mkRat 1 2 ≤ (1 : ℚ)), (by decide : (1 : ℚ) ≤ mkRat 3 2)⟩)).2.1 1 rfl

/-! ### Environment-agreement and counter lemmas -/

theorem checkAllPodsAux_counter_le (env : ℕ → ExecResult) (stsname : String) :
    ∀ (ps : List ℤ) (k : ℕ), k ≤ (checkAllPodsAux env stsname k ps).2
  | [], _ => le_rfl
  | p :: ps, k => by
    simp only [checkAllPodsAux]
    cases hx : checkUnderReplicatedMetric env k (stsname ++ "-" ++ toString p) p with
    | mk oe k2 =>
      have hk2 : k + 1 = k2 := congrArg Prod.snd hx
      cases oe with
      | some e => exact hk2 ▸ Nat.le_succ k
      | none =>
        calc k ≤ k + 1 := Nat.le_succ k
          _ ≤ (checkAllPodsAux env stsname (k + 1) ps).2 :=
            checkAllPodsAux_counter_le env stsname ps (k + 1)
          _ = (checkAllPodsAux env stsname k2 ps).2 := by rw [hk2]

theorem checkAllPods_counter_le (env : ℕ → ExecResult) (stsname : String)
    (replicas : ℤ) (k : ℕ) :
    k ≤ (checkUnderReplicatedMetricAllPods env k stsname replicas).2 :=
  checkAllPodsAux_counter_le env stsname (podsDescending replicas) k

theorem checkAllPodsAux_congr (env env' : ℕ → ExecResult) (stsname : String) :
    ∀ (ps : List ℤ) (k : ℕ), (∀ m, k ≤ m → env m = env' m) →
      checkAllPodsAux env stsname k ps = checkAllPodsAux env' stsname k ps
  | [], _, _ => rfl
  | p :: ps, k, h => by
    have hcheck : checkUnderReplicatedMetric env k (stsname ++ "-" ++ toString p) p =
        checkUnderReplicatedMetric env' k (stsname ++ "-" ++ toString p) p := by
      rw [checkUnderReplicatedMetric, checkUnderReplicatedMetric, h k le_rfl]
    simp only [checkAllPodsAux, hcheck]
    cases hx : checkUnderReplicatedMetric env' k (stsname ++ "-" ++ toString p) p with
    | mk oe k2 =>
      have hk2 : k + 1 = k2 := congrArg Prod.snd hx
      cases oe with
      | some e => rfl
      | none =>
        subst hk2
        exact checkAllPodsAux_congr env env' stsname ps (k + 1)
          (fun m hm => h m (Nat.le_of_succ_le hm))

theorem checkAllPods_congr (env env' : ℕ → ExecResult) (stsname : String)
    (replicas : ℤ) (k : ℕ) (h : ∀ m, k ≤ m → env m = env' m) :
    checkUnderReplicatedMetricAllPods env k stsname replicas =
      checkUnderReplicatedMetricAllPods env' k stsname replicas :=
  checkAllPodsAux_congr env env' stsname (podsDescending replicas) k h

theorem retryAux_congr (env env' : ℕ → ExecResult) (factors : ℕ → ℚ)
    (stsname : String) (replicas : ℤ) :
    ∀ (fuel k : ℕ) (cur el : ℚ) (i : ℕ), (∀ m, k ≤ m → env m = env' m) →
      retryAux env factors stsname replicas fuel k cur el i =
        retryAux env' factors stsname replicas fuel k cur el i
  | 0, _, _, _, _, _ => rfl
  | fuel + 1, k, cur, el, i, h => by
    have hsw := checkAllPods_congr env env' stsname replicas k h
    simp only [retryAux, hsw]
    cases hx : checkUnderReplicatedMetricAllPods env' k stsname replicas with
    | mk oe k2 =>
      have hk2 : k ≤ k2 := by
        have := checkAllPods_counter_le env' stsname replicas k
        rwa [hx] at this
      cases oe with
      | none => rfl
      | some e =>
        by_cases hstop : maxElapsedTimeQ < el
        · simp only [if_pos hstop]
        · simp only [if_neg hstop]
          exact retryAux_congr env env' factors stsname replicas fuel k2 _ _ (i + 1)
            (fun m hm => h m (le_trans hk2 hm))

theorem retryAux_counter_le (env : ℕ → ExecResult) (factors : ℕ → ℚ)
    (stsname : String) (replicas : ℤ) :
    ∀ (fuel k : ℕ) (cur el : ℚ) (i : ℕ) (oe : Option GoError) (k2 : ℕ) (s : ℚ),
      retryAux env factors stsname replicas fuel k cur el i = some (oe, k2, s) →
      k ≤ k2
  | 0, _, _, _, _, _, _, _ => by intro h; exact absurd h (by simp [retryAux])
  | fuel + 1, k, cur, el, i, oe, k2, s => by
    intro h
    simp only [retryAux] at h
    cases hx : checkUnderReplicatedMetricAllPods env k stsname replicas with
    | mk oe' k' =>
      rw [hx] at h
      have hk' : k ≤ k' := by
        have := checkAllPods_counter_le env stsname replicas k
        rwa [hx] at this
      cases oe' with
      | none =>
        simp only [Option.some.injEq, Prod.mk.injEq] at h
        exact h.2.1 ▸ hk'
      | some e =>
        by_cases hstop : maxElapsedTimeQ < el
        · simp only [if_pos hstop, Option.some.injEq, Prod.mk.injEq] at h
          exact h.2.1 ▸ hk'
        · simp only [if_neg hstop] at h
          exact le_trans hk'
            (retryAux_counter_le env factors stsname replicas fuel k' _ _ (i + 1) oe k2 s h)

theorem waitUntil_congr (env env' : ℕ → ExecResult) (factors : ℕ → ℚ) (k : ℕ)
    (stsname logSuffix : String) (replicas : ℤ)
    (h : ∀ m, k ≤ m → env m = env' m) :
    waitUntilUnderReplicatedMetricIsZero env factors k stsname replicas logSuffix =
      waitUntilUnderReplicatedMetricIsZero env' factors k stsname replicas logSuffix := by
  rw [waitUntilUnderReplicatedMetricIsZero, waitUntilUnderReplicatedMetricIsZero,
    retryAux_congr env env' factors stsname replicas retryFuel k initialIntervalQ 0 0 h]

theorem waitUntil_counter_le (env : ℕ → ExecResult) (factors : ℕ → ℚ) (k : ℕ)
    (stsname logSuffix : String) (replicas : ℤ) (oe : Option GoError) (k2 : ℕ) (s : ℚ)
    (h : waitUntilUnderReplicatedMetricIsZero env factors k stsname replicas logSuffix =
      some (oe, k2, s)) : k ≤ k2 := by
  rw [waitUntilUnderReplicatedMetricIsZero] at h
  cases hx : retryAux env factors stsname replicas retryFuel k initialIntervalQ 0 0 with
  | none => rw [hx] at h; exact absurd h (by simp)
  | some v =>
    obtain ⟨oe', k', s'⟩ := v
    rw [hx] at h
    have hk' := retryAux_counter_le env factors stsname replicas retryFuel k
      initialIntervalQ 0 0 oe' k' s' hx
    cases oe' with
    | none => simp only [Option.some.injEq, Prod.mk.injEq] at h; exact h.2.1 ▸ hk'
    | some e => simp only [Option.some.injEq, Prod.mk.injEq] at h; exact h.2.1 ▸ hk'

theorem probeConvergenceChecks_congr (env env' : ℕ → ExecResult) (factors : ℕ → ℚ)
    (k : ℕ) (stsname logSuffix : String) (replicas : ℤ)
    (h : ∀ m, k ≤ m → env m = env' m) :
    probeConvergenceChecks env factors k stsname replicas logSuffix =
      probeConvergenceChecks env' factors k stsname replicas logSuffix := by
  have h1 := waitUntil_congr env env' factors k stsname logSuffix replicas h
  rw [probeConvergenceChecks, probeConvergenceChecks, h1]
  cases hw : waitUntilUnderReplicatedMetricIsZero env' factors k stsname replicas logSuffix with
  | none => rfl
  | some v =>
    obtain ⟨oe, k2, s⟩ := v
    have hk2 := waitUntil_counter_le env' factors k stsname logSuffix replicas oe k2 s hw
    cases oe with
    | some e => rfl
    | none =>
      simp only [isCurlNotFoundOpt, Bool.false_eq_true, if_false]
      rw [waitUntil_congr env env' factors k2 stsname logSuffix replicas
        (fun m hm => h m (le_trans hk2 hm))]

/-! ### Claims C3, C9, C10 — the probe orchestrator -/

/-- C3: when the pre-check fleet sweep reports `CurlNotFoundErr`
(ToolUnavailable), `Probe` sleeps exactly the fixed 1-minute fallback
(`sleepBetweenUpdates = 60` seconds, and nothing else: the total slept time
is exactly 60), returns nil, runs zero backoff-polled passes, does not
perform the 22-second settle sleep, and consumes no exec call beyond the
pre-check's own `k1`. -/
theorem probe_toolFallback (env : ℕ → ExecResult) (factors : ℕ → ℚ)
    (stsname logSuffix : String) (replicas nodeID : ℤ) (e : GoError) (k1 : ℕ)
    (hpre : checkUnderReplicatedMetricAllPods env 0 stsname replicas = (some e, k1))
    (hcurl : e.isCurlNotFound = true) :
    Probe env factors (.ok replicas) none stsname logSuffix nodeID =
      some ⟨none, sleepBetweenUpdates, k1, 0, false⟩ ∧
    sleepBetweenUpdates = 60 := by
  constructor
  · simp [Probe, hpre, isCurlNotFoundOpt, hcurl]
  · rfl

/-- C3 witness: the theorem applied to the all-curl-missing environment with
one replica. -/
theorem probe_toolFallback_witness :
    Probe envCurl factorsOne (.ok 1) none "crdb" "ts" 0 =
      some ⟨none, 60, 1, 0, false⟩ := by
  have h := (probe_toolFallback envCurl factorsOne "crdb" "ts" 1 0
    (.curlNotFound (.errMsg (execFailMsg "crdb-0" curlnotfounderr))) 1
    (by decide) (by decide)).1
  exact h.trans (by decide)

/-- C9: whenever the probe reaches the convergence phase (pre-check outcome
not a `CurlNotFoundErr`) and the first backoff-polled pass succeeds, `Probe`
unconditionally sleeps 22 further seconds and runs exactly one more
backoff-polled pass (two passes total), whose outcome — error or nil — is
returned as the probe's own result. -/
theorem probe_secondCheck (env : ℕ → ExecResult) (factors : ℕ → ℚ)
    (stsname logSuffix : String) (replicas nodeID : ℤ) (pre : Option GoError)
    (k1 k2 k3 : ℕ) (s1 s2 : ℚ) (res2 : Option GoError)
    (hpre : checkUnderReplicatedMetricAllPods env 0 stsname replicas = (pre, k1))
    (hnc : isCurlNotFoundOpt pre = false)
    (h1 : waitUntilUnderReplicatedMetricIsZero env factors k1 stsname replicas logSuffix =
      some (none, k2, s1))
    (h2 : waitUntilUnderReplicatedMetricIsZero env factors k2 stsname replicas logSuffix =
      some (res2, k3, s2)) :
    Probe env factors (.ok replicas) none stsname logSuffix nodeID =
      some ⟨res2, qAdd (qAdd s1 22) s2, k3, 2, true⟩ ∧
    qAdd (qAdd s1 22) s2 = s1 + 22 + s2 := by
  constructor
  · simp only [Probe, hpre]
    rw [hnc]
    simp [probeConvergenceChecks, h1, isCurlNotFoundOpt, h2]
  · rw [qAdd_eq, qAdd_eq]

/-- C9 witness: the theorem applied to the all-healthy environment; both
passes succeed without retrying, so the probe sleeps exactly the fixed 22
seconds and returns nil after two sweep passes and three exec calls. -/
theorem probe_secondCheck_witness :
    Probe envGood factorsOne (.ok 1) none "crdb" "ts" 0 =
      some ⟨none, 22, 3, 2, true⟩ := by
  have h := (probe_secondCheck envGood factorsOne "crdb" "ts" 1 0 none 1 2 3 0 0 none
    (by decide) (by decide) (by decide) (by decide)).1
  exact h.trans (by decide)

/-- C10 (implicit): when the pre-check fleet sweep fails with an error that
is not a `CurlNotFoundErr`, `Probe` discards the error — the probe's result
is exactly the convergence-check phase started at the pre-check's final
counter (conjunct 1), and it does not depend on which non-curl error the
pre-check produced nor on anything else in the pre-check's portion of the
environment (conjunct 2: two environments that agree from `k1` on and whose
pre-checks both fail non-curl at `k1` give identical probe results). -/
theorem probe_preCheckDiscard (env env' : ℕ → ExecResult) (factors : ℕ → ℚ)
    (stsname logSuffix : String) (replicas nodeID : ℤ) (e e' : GoError) (k1 : ℕ)
    (hpre : checkUnderReplicatedMetricAllPods env 0 stsname replicas = (some e, k1))
    (hnc : e.isCurlNotFound = false) :
    Probe env factors (.ok replicas) none stsname logSuffix nodeID =
      probeConvergenceChecks env factors k1 stsname replicas logSuffix ∧
    (checkUnderReplicatedMetricAllPods env' 0 stsname replicas = (some e', k1) →
      e'.isCurlNotFound = false →
      (∀ m, k1 ≤ m → env m = env' m) →
      Probe env factors (.ok replicas) none stsname logSuffix nodeID =
        Probe env' factors (.ok replicas) none stsname logSuffix nodeID) := by
  have part1 : Probe env factors (.ok replicas) none stsname logSuffix nodeID =
      probeConvergenceChecks env factors k1 stsname replicas logSuffix := by
    simp [Probe, hpre, isCurlNotFoundOpt, hnc]
  refine ⟨part1, fun hpre' hnc' hagree => ?_⟩
  have part1' : Probe env' factors (.ok replicas) none stsname logSuffix nodeID =
      probeConvergenceChecks env' factors k1 stsname replicas logSuffix := by
    simp [Probe, hpre', isCurlNotFoundOpt, hnc']
  rw [part1, part1',
    probeConvergenceChecks_congr env env' factors k1 stsname logSuffix replicas hagree]

/-- C10 witness: two environments whose pre-checks fail with different
non-curl stderr texts and agree afterwards; the probe's result is the
convergence phase's result (here nil after two healthy passes), identically
for both. -/
theorem probe_preCheckDiscard_witness :
    Probe envPreFail factorsOne (.ok 1) none "crdb" "ts" 0 =
      probeConvergenceChecks envPreFail factorsOne 1 "crdb" 1 "ts" ∧
    Probe envPreFail factorsOne (.ok 1) none "crdb" "ts" 0 =
      Probe envPreFail2 factorsOne (.ok 1) none "crdb" "ts" 0 ∧
    Probe envPreFail factorsOne (.ok 1) none "crdb" "ts" 0 =
      some ⟨none, 22, 3, 2, true⟩ := by
  have h := probe_preCheckDiscard envPreFail envPreFail2 factorsOne "crdb" "ts" 1 0
    (.errMsg (execFailMsg "crdb-0" "xyz")) (.errMsg (execFailMsg "crdb-0" "zzz")) 1
    (by decide) (by decide)
  refine ⟨h.1, h.2 (by decide) (by decide) ?_, by decide⟩
  intro m hm
  have hm0 : m ≠ 0 := by omega
  simp [envPreFail, envPreFail2, hm0]

/-! ### Claims C1, C2 — the tool-missing classification and its propagation -/

/-- C1 (code bug): the source tests the tool-missing marker with
`strings.ContainsAny(stderr, curlnotfounderr)` — a character-set membership
test — instead of substring containment.  The stderr `"no route to host"`
does not contain the substring `"/bin/bash: curl: command not found"`
(conjunct 1), so the claim requires a plain transport error; but it shares
characters with it (conjunct 2), so the code classifies it as
`CurlNotFoundErr` (conjunct 3). -/
theorem checkMetric_containsAny_bug :
    containsSubstring "no route to host" curlnotfounderr = false ∧
    containsAny "no route to host" curlnotfounderr = true ∧
    (checkUnderReplicatedMetric (fun _ => ⟨"", "no route to host", none⟩) 0 "crdb-0" 0).1 =
      some (.curlNotFound (.errMsg (execFailMsg "crdb-0" "no route to host"))) := by
  decide

set_option maxRecDepth 80000 in
/-- C2 (code bug): a `CurlNotFoundErr` arising during the first
backoff-polled convergence pass is surfaced by `Probe` as a non-nil error.
In `envMix` the pre-check (exec call 0) converges but every later exec fails
with the curl-not-found stderr, so the convergence-phase sweeps report
`CurlNotFoundErr` (conjunct 1); after the 3-minute budget the first pass
fails and `Probe` returns the wrap of the `CurlNotFoundErr` — not nil
(conjunct 2; with factor stream 1 the loop runs 25 attempts and has slept
47265/256 = 184.62890625 seconds).  The source's own comment before line 103
says the probe should "exit" nil in this case, but that type assertion is
dead code: it sits after `if err != nil { return err }` and would anyway be
defeated by the `errors.Wrapf` wrapping. -/
theorem probe_surfaces_curlNotFound :
    (checkUnderReplicatedMetricAllPods envMix 1 "crdb" 1).1 =
      some (.curlNotFound (.errMsg (execFailMsg "crdb-0" curlnotfounderr))) ∧
    Probe envMix factorsOne (.ok 1) none "crdb" "ts" 0 =
      some ⟨some (.wrap (replicasCheckFailMsg "ts")
          (.curlNotFound (.errMsg (execFailMsg "crdb-0" curlnotfounderr)))),
        mkRat 47265 256, 26, 1, false⟩ := by
  decide
